import Mathlib

/-!
Shallow embedding of the sirun benchmarking harness (DataDog/sirun),
translated from the Rust sources: `summarize.rs`, `metric_value.rs`,
`statsd.rs`, `subproc.rs`, `main.rs`, `config.rs`.  IEEE f64 values are
modelled exactly: finite values as rationals, plus the positive infinity
used as the seed of the min/max folds in the summarizer.  Rust panics and
`anyhow` errors are modelled with `Option`/`Except`.
-/

namespace Sirun

/-- Model of the f64 values reaching the summarizer and the metric maps: a
finite value (exact rational) or positive infinity (`f64::INFINITY`, the
seed of the min/max folds in `summarize.rs`).  NaN and negative infinity do
not arise on the embedded code paths (JSON input has only finite numbers). -/
inductive F where
  | fin (q : ℚ) : F
  | inf : F
deriving DecidableEq

/-- f64 addition restricted to the values above: finite plus finite is exact,
anything involving infinity is infinity (no inf-minus-inf shapes occur). -/
def F.add : F → F → F
  | .fin a, .fin b => .fin (a + b)
  | _, _ => .inf

/-- f64 subtraction; only finite minus finite occurs in the summarizer. -/
def F.sub : F → F → F
  | .fin a, .fin b => .fin (a - b)
  | _, _ => .inf

/-- f64 multiplication on the occurring shapes; the IEEE case zero times
infinity (NaN) is not reached by the embedded code. -/
def F.mul : F → F → F
  | .fin a, .fin b => .fin (a * b)
  | _, _ => .inf

/-- f64 division on the occurring shapes.  Division by zero is mapped to
infinity (IEEE gives an infinity or NaN); the embedded call sites divide by
nonzero lengths or by a nonzero mean in every claim instance.  A finite
value divided by infinity is zero. -/
def F.div : F → F → F
  | .fin a, .fin b => if b = 0 then .inf else .fin (a / b)
  | .inf, _ => .inf
  | .fin _, .inf => .fin 0

/-- Model of `f64::min` on the occurring values: infinity is the top. -/
def F.fmin : F → F → F
  | .fin a, .fin b => .fin (min a b)
  | .fin a, .inf => .fin a
  | .inf, b => b

/-- Model of `f64::max` on the occurring values: infinity absorbs. -/
def F.fmax : F → F → F
  | .fin a, .fin b => .fin (max a b)
  | _, _ => .inf

/-- Sum of a list of f64 values (`items.iter().sum()`), folding from zero. -/
def F.sum (items : List F) : F := items.foldl F.add (.fin 0)

/-- The recursive metric value type from `metric_value.rs`: string, number,
sequence, or mapping.  `HashMap<String, MetricValue>` is modelled as an
association list. -/
inductive MetricValue where
  | str (s : String)
  | num (x : F)
  | arr (xs : List MetricValue)
  | map (kvs : List (String × MetricValue))

/-- Conversion `MetricValue::as_f64` from `metric_value.rs`; the source
panics on a non-number, modelled as `none`. -/
def MetricValue.as_f64 : MetricValue → Option F
  | .num x => some x
  | _ => none

/-- Conversion `MetricValue::as_map` (and the mutable variant) from
`metric_value.rs`; panics on a non-map, modelled as `none`. -/
def MetricValue.as_map : MetricValue → Option (List (String × MetricValue))
  | .map kvs => some kvs
  | _ => none

/-- Conversion `MetricValue::as_string` from `metric_value.rs`; panics on a
non-string, modelled as `none`. -/
def MetricValue.as_string : MetricValue → Option String
  | .str s => some s
  | _ => none

/-- Conversion `MetricValue::as_vec` from `metric_value.rs`; panics on a
non-array, modelled as `none`. -/
def MetricValue.as_vec : MetricValue → Option (List MetricValue)
  | .arr xs => some xs
  | _ => none

/-- Insertion into an association list, modelling `HashMap::insert` and
`IndexMap::insert`: replace the value at an existing key, otherwise append
the new binding at the end. -/
def insertKV {α : Type} : List (String × α) → String → α → List (String × α)
  | [], k, v => [(k, v)]
  | (k0, v0) :: rest, k, v =>
      if k0 = k then (k, v) :: rest else (k0, v0) :: insertKV rest k v

/-- Lookup in an association list, modelling `HashMap::get`. -/
def lookupKV {α : Type} : List (String × α) → String → Option α
  | [], _ => none
  | (k0, v0) :: rest, k => if k0 = k then some v0 else lookupKV rest k

/-- Removal from an association list, modelling `HashMap::remove`. -/
def removeKV {α : Type} : List (String × α) → String → List (String × α)
  | [], _ => []
  | (k0, v0) :: rest, k =>
      if k0 = k then removeKV rest k else (k0, v0) :: removeKV rest k

/-- The function `mean` from `summarize.rs`: the sum of the items divided by
the length. -/
def mean (items : List F) : F :=
  F.div (F.sum items) (.fin items.length)

/-- The function `stddev` from `summarize.rs`: the square root of the mean
of the squared deviations (population standard deviation).  `f64::sqrt` is
a standard-library function external to this repository and is passed in as
`fsqrt`; theorems only constrain its value at the perfect squares they
reach.  `f64::powf(d, 2.0)` is modelled as `d * d`. -/
def stddev (fsqrt : F → F) (m : F) (items : List F) : F :=
  fsqrt (mean (items.map (fun x => F.mul (F.sub x m) (F.sub x m))))

/-- Per-iteration observation collection from `summary` in `summarize.rs`:
pushing a value onto the per-key list of the stats map (a fresh key is
appended, matching first-encounter order of the source HashMap fill). -/
def pushStat (stats : List (String × List F)) (k : String) (x : F) :
    List (String × List F) :=
  match stats with
  | [] => [(k, [x])]
  | (k0, xs) :: rest =>
      if k0 = k then (k0, xs ++ [x]) :: rest else (k0, xs) :: pushStat rest k x

/-- Inner loop of `summary` over one iteration map, reading each value with
`as_f64` (panic on a non-number, modelled as `none`). -/
def collectIter (stats : List (String × List F)) :
    List (String × MetricValue) → Option (List (String × List F))
  | [] => some stats
  | (k, v) :: rest => do
      let x ← v.as_f64
      collectIter (pushStat stats k x) rest

/-- Outer loop of `summary` over the iterations, reading each iteration as a
map (`as_map`, panic on a non-map modelled as `none`). -/
def collectStats (stats : List (String × List F)) :
    List MetricValue → Option (List (String × List F))
  | [] => some stats
  | it :: rest => do
      let kvs ← it.as_map
      let stats2 ← collectIter stats kvs
      collectStats stats2 rest

/-- The per-key statistics map built by `summary` in `summarize.rs`, in the
source insertion order mean, stddev, stddev_pct, min, max.  Both the min
fold and the max fold are seeded with `f64::INFINITY`, exactly as in the
source (lines 47 and 51). -/
def keyStatistics (fsqrt : F → F) (items : List F) :
    List (String × MetricValue) :=
  let m := mean items
  let s := stddev fsqrt m items
  insertKV (insertKV (insertKV (insertKV (insertKV []
    "mean" (.num m))
    "stddev" (.num s))
    "stddev_pct" (.num (F.mul (F.div s m) (.fin 100))))
    "min" (.num (items.foldl F.fmin .inf)))
    "max" (.num (items.foldl F.fmax .inf))

/-- The function `summary` from `summarize.rs`: collect per-key observation
lists across the iterations, then compute the statistics map per key.
`none` models a panic inside the collection. -/
def summary (fsqrt : F → F) (iterations : List MetricValue) :
    Option MetricValue := do
  let stats ← collectStats [] iterations
  some (.map (stats.map (fun p => (p.1, MetricValue.map (keyStatistics fsqrt p.2)))))

/-- Processing of one input line by `summarize` in `summarize.rs` (lines
64-99).  The `line` argument is the outcome of `serde_json::from_str` on the
raw line: `none` models a parse failure (the line is skipped).  The overall
result is `none` exactly when the source panics (`as_string` on a non-string
name or variant, `as_map_mut` on a non-map entry, `as_vec` on a non-array
iterations value, `as_f64` on a non-number metric inside `summary`).
Mutation of `result_data` is modelled by returning the updated map. -/
def summarizeLine (fsqrt : F → F) (resultData : List (String × MetricValue))
    (line : Option (List (String × MetricValue))) :
    Option (List (String × MetricValue)) :=
  match line with
  | none => some resultData
  | some jsonData =>
    match lookupKV jsonData "name" with
    | none => some resultData
    | some nameV =>
      match nameV.as_string with
      | none => none
      | some name =>
        let jsonData := removeKV jsonData "name"
        match lookupKV jsonData "variant" with
        | none => some resultData
        | some variantV =>
          match variantV.as_string with
          | none => none
          | some variant =>
            let jsonData := removeKV jsonData "variant"
            let resultData :=
              if (lookupKV resultData name).isSome then resultData
              else insertKV resultData name (.map [])
            match (lookupKV resultData name).bind MetricValue.as_map with
            | none => none
            | some nameData =>
              match lookupKV jsonData "iterations" with
              | none => some resultData
              | some iters =>
                match iters.as_vec with
                | none => none
                | some itersList =>
                  match summary fsqrt itersList with
                  | none => none
                  | some summ =>
                    let jsonData :=
                      insertKV (removeKV jsonData "iterations") "summary" summ
                    some (insertKV resultData name
                      (.map (insertKV nameData variant (.map jsonData))))

/-- The whole `summarize` loop: fold `summarizeLine` over the input lines;
a panic (`none`) aborts the stream with no output printed. -/
def summarizeStream (fsqrt : F → F) :
    List (Option (List (String × MetricValue))) →
    List (String × MetricValue) → Option (List (String × MetricValue))
  | [], acc => some acc
  | l :: rest, acc => do
      let acc2 ← summarizeLine fsqrt acc l
      summarizeStream fsqrt rest acc2

/-- Splitting a character list at every occurrence of a separator,
modelling `str::split` on one separator character (a structurally
recursive stand-in for the built-in string split, which does not reduce
inside the kernel).  Like the Rust iterator, an empty input yields one
empty piece and the piece count is one more than the separator count. -/
def splitOnChar (sep : Char) : List Char → List (List Char)
  | [] => [[]]
  | c :: rest =>
    match splitOnChar sep rest with
    | [] => [[c]]
    | g :: gs => if c = sep then [] :: g :: gs else (c :: g) :: gs

/-- Whitespace test matching the characters `str::trim` strips in the
datagram traffic (space, newline, tab, carriage return). -/
def isWhitespaceChar (c : Char) : Bool :=
  c = ' ' ∨ c = '\n' ∨ c = '\t' ∨ c = '\r'

/-- Model of `str::trim`: strip leading and trailing whitespace. -/
def trimChars (cs : List Char) : List Char :=
  ((cs.dropWhile isWhitespaceChar).reverse.dropWhile isWhitespaceChar).reverse

/-- Model of `str::parse::<f64>` on a digit run: `none` unless the
characters are a nonempty run of decimal digits. -/
def parseDigits (cs : List Char) : Option Nat :=
  if cs.isEmpty then none
  else if cs.all Char.isDigit then
    some (cs.foldl (fun n c => 10 * n + (c.toNat - 48)) 0)
  else none

/-- Model of `str::parse::<f64>` (Rust standard library, external to this
repository), covering the decimal forms the harness exchanges: an optional
sign, a nonempty digit run, and an optional fractional digit run.  Every
other string fails to parse, as the claims require only that inputs such as
plain words are rejected; exponent and special-value forms are unused. -/
def parseF64 (cs : List Char) : Option ℚ :=
  let core : List Char → Option ℚ := fun body =>
    match splitOnChar '.' body with
    | [ip] => (parseDigits ip).map (fun n => (n : ℚ))
    | [ip, fp] => do
        let n ← parseDigits ip
        let f ← parseDigits fp
        some ((n : ℚ) + (f : ℚ) / (10 : ℚ) ^ fp.length)
    | _ => none
  match cs with
  | '-' :: rest => (core rest).map (fun q => -q)
  | '+' :: rest => core rest
  | _ => core cs

/-- The line view of the buffered datagram text in `get_statsd_metrics`
(`statsd.rs` line 39): trim, then split into lines. -/
def statsdLines (s : List Char) : List (List Char) :=
  let t := trimChars s
  if t = [] then [] else splitOnChar '\n' t

/-- Per-line split in `get_statsd_metrics` (`statsd.rs` lines 42-45): the
text before the first pipe, split at every colon. -/
def metricParts (line : List Char) : List (List Char) :=
  splitOnChar ':' ((splitOnChar '|' line).headD [])

/-- The loop body of `get_statsd_metrics` (`statsd.rs` lines 41-50) over the
already-split lines.  A line with fewer than two colon-separated parts is
skipped (`continue`); otherwise the second part must parse as a number, and
a parse failure is propagated as an error by the source `?` operator. -/
def processStatsdLines (metrics : List (String × MetricValue)) :
    List (List Char) → Except Unit (List (String × MetricValue))
  | [] => .ok metrics
  | line :: rest =>
    match metricParts line with
    | k :: v :: _ =>
      match parseF64 v with
      | none => .error ()
      | some x =>
        processStatsdLines (insertKV metrics (String.mk k) (.num (.fin x)))
          rest
    | _ => processStatsdLines metrics rest

/-- The pure core of `get_statsd_metrics` from `statsd.rs`, applied to the
text drained from the shared buffer. -/
def get_statsd_metrics (udp_string : List Char) :
    Except Unit (List (String × MetricValue)) :=
  processStatsdLines [] (statsdLines udp_string)

/-- The buffer clear `udp_data.write().await.clear()` of `statsd.rs` line
40: the previous contents are discarded. -/
def clearBuf (_ : List Char) : List Char := []

/-- The drain of `get_statsd_metrics` interleaved with listener appends.
The listener task appends each received datagram under the write lock
(`statsd.rs` line 30); the drain is TWO separately locked atomic actions:
cloning the buffer under a read lock (line 38) and clearing it under a
freshly acquired write lock (line 40).  Because the lock serialises the
individual actions, an arbitrary interleaving is exactly described by which
appends land before the clone, between the clone and the clear, and after
the clear.  The result is the text the drain parses and the buffer left
for the next iteration. -/
def drainWithAppends (init : List Char) (before mid after : List (List Char)) :
    List Char × List Char :=
  let b0 := before.foldl (fun b d => b ++ d) init
  let snapshot := b0
  let b1 := mid.foldl (fun b d => b ++ d) b0
  let b2 := clearBuf b1
  let b3 := after.foldl (fun b d => b ++ d) b2
  (snapshot, b3)

/-- Exit disposition of a child process, as distinguished by
`ExitStatus::code()` (`Some` code for a normal exit, `None` when the
process was terminated by a signal, in which case `signal()` names it). -/
inductive ExitStatus where
  | code (c : Int)
  | signal (s : Int)
deriving DecidableEq

/-- Outcome of `run_setup_or_teardown` in `subproc.rs`: success, the
100-attempt bail (the source error says the script did not complete
successfully), or the bail naming the terminating signal. -/
inductive SetupOutcome where
  | ok
  | budgetExhausted
  | signalled (s : Int)
deriving DecidableEq

/-- Observable trace of one `run_setup_or_teardown` call: its outcome, how
many one-second sleeps it performed, and how many times it ran the
command. -/
structure SetupRun where
  outcome : SetupOutcome
  sleeps : Nat
  runs : Nat
deriving DecidableEq

/-- The retry loop of `run_setup_or_teardown` (`subproc.rs` lines 24-46).
The source keeps an `attempts` counter bumped after every failed run and
bails when it reaches 100; here `fuel` is the number of remaining allowed
failures (100 minus attempts), so the loop is structural.  The command
statuses are given as a function of the zero-based run index `attempts`.
Exit code 0 ends the loop; a nonzero code sleeps one second, bumps the
counter and retries; a signal termination bails immediately. -/
def setupLoopAux (statuses : Nat → ExitStatus) :
    Nat → Nat → SetupRun
  | 0, _ => ⟨.budgetExhausted, 0, 0⟩
  | fuel + 1, attempts =>
    match statuses attempts with
    | .code c =>
      if c = 0 then ⟨.ok, 0, 1⟩
      else
        let r := setupLoopAux statuses fuel (attempts + 1)
        ⟨r.outcome, r.sleeps + 1, r.runs + 1⟩
    | .signal s => ⟨.signalled s, 0, 1⟩

/-- The whole retry loop entered with `attempts = 0` and a budget of 100
failed attempts, as in `subproc.rs`. -/
def setupLoop (statuses : Nat → ExitStatus) : SetupRun :=
  setupLoopAux statuses 100 0

/-- The function `run_setup_or_teardown` from `subproc.rs`: return
immediately when `SIRUN_SKIP_SETUP` is set or when no command is
configured, otherwise run the retry loop. -/
def run_setup_or_teardown (skipSetup : Bool)
    (commandArr : Option (List String)) (statuses : Nat → ExitStatus) :
    SetupRun :=
  if skipSetup then ⟨.ok, 0, 0⟩
  else
    match commandArr with
    | none => ⟨.ok, 0, 0⟩
    | some _ => setupLoop statuses

/-- The resource-usage sample of `rusage.rs` (user time, system time and
peak resident set size, microsecond-resolution times as exact rationals);
the arguments of `get_kernel_metrics` are the componentwise delta of two
samples. -/
structure Rusage where
  user_time : ℚ
  system_time : ℚ
  max_res_size : ℚ
deriving DecidableEq

/-- The function `get_kernel_metrics` from `main.rs` (lines 141-148):
record the delta components and derive `cpu.pct.wall.time` as
`(user + system) * 100 / wall`.  The f64 arithmetic is modelled as exact
rational arithmetic; a zero wall time (where IEEE division diverges from
the rational model) is excluded by hypothesis in the theorems. -/
def get_kernel_metrics (wall_time : ℚ) (data : Rusage)
    (metrics : List (String × MetricValue)) : List (String × MetricValue) :=
  let m1 := insertKV metrics "max.res.size" (.num (.fin data.max_res_size))
  let m2 := insertKV m1 "user.time" (.num (.fin data.user_time))
  let m3 := insertKV m2 "system.time" (.num (.fin data.system_time))
  insertKV m3 "cpu.pct.wall.time"
    (.num (.fin ((data.user_time + data.system_time) * 100 / wall_time)))

/-- Result of `run_test` in `main.rs`: the process panics when the measured
command has no exit code (`status.code().expect(..)` on a signal
termination), aborts the whole invocation with the same code for a nonzero
code at most 128, and otherwise records the metrics map. -/
inductive TestOutcome where
  | panicked
  | aborted (c : Int)
  | ok (metrics : List (String × MetricValue))

/-- The measurement bookkeeping of `run_test` from `main.rs` (lines
156-174), with the wall-clock duration, the resource-usage delta and the
measured command status as inputs (the timeout watcher is a concurrent
task and is not part of this pure core).  `wall.time` is recorded first;
then the exit disposition is classified exactly as in lines 167-171. -/
def run_test (metrics0 : List (String × MetricValue)) (wall : ℚ)
    (ru : Rusage) (status : ExitStatus) : TestOutcome :=
  let metrics := insertKV metrics0 "wall.time" (.num (.fin wall))
  match status with
  | .signal _ => .panicked
  | .code c =>
    if c ≠ 0 ∧ c ≤ 128 then .aborted c
    else .ok (get_kernel_metrics wall ru metrics)

/-- Result of one `run_iteration` call in `main.rs` (lines 176-199),
together with a flag recording whether the measured child command was
spawned at all. -/
inductive IterOutcome where
  | setupFailed (o : SetupOutcome)
  | measuredPanicked
  | aborted (c : Int)
  | drainFailed
  | teardownFailed (o : SetupOutcome)
  | done (metrics : List (String × MetricValue))

/-- Inputs of one `run_iteration` call: the skip flag and commands from the
configuration, the statuses of the successive setup and teardown attempts,
the measured child status, and the statsd buffer contents at drain time. -/
structure IterInput where
  skipSetup : Bool
  setup : Option (List String)
  teardown : Option (List String)
  setupStatuses : Nat → ExitStatus
  measuredStatus : ExitStatus
  bufContents : List Char
  teardownStatuses : Nat → ExitStatus

/-- The control flow of `run_iteration` from `main.rs`: setup (with its
retry loop) runs first and an error aborts the iteration before the
measured command is spawned; then the measured child runs and its status is
classified as in lines 190-193 (panic without an exit code, abort for a
nonzero code at most 128); then the statsd buffer is drained (a drain error
propagates); then teardown runs.  The boolean is true exactly when the
measured command was spawned. -/
def run_iteration (inp : IterInput) : IterOutcome × Bool :=
  let su := run_setup_or_teardown inp.skipSetup inp.setup inp.setupStatuses
  match su.outcome with
  | .budgetExhausted => (.setupFailed .budgetExhausted, false)
  | .signalled s => (.setupFailed (.signalled s), false)
  | .ok =>
    match inp.measuredStatus with
    | .signal _ => (.measuredPanicked, true)
    | .code c =>
      if c ≠ 0 ∧ c ≤ 128 then (.aborted c, true)
      else
        match get_statsd_metrics inp.bufContents with
        | .error _ => (.drainFailed, true)
        | .ok ms =>
          let td := run_setup_or_teardown inp.skipSetup inp.teardown
            inp.teardownStatuses
          match td.outcome with
          | .ok => (.done ms, true)
          | .budgetExhausted => (.teardownFailed .budgetExhausted, true)
          | .signalled s => (.teardownFailed (.signalled s), true)

/-- The iteration loop of `main_main` (`main.rs` lines 240-245): run the
iterations in order, pushing each resulting metrics map onto the
`iterations` vector; the `?` operator aborts at the first failing
iteration.  `iter i` is the outcome of iteration `i`. -/
def gatherIterations
    (iter : Nat → Except Unit (List (String × MetricValue))) :
    Nat → Except Unit (List MetricValue)
  | 0 => .ok []
  | n + 1 => do
      let acc ← gatherIterations iter n
      let m ← iter n
      pure (acc ++ [.map m])

/-- The parsed configuration document handed to `get_config` by
`serde_yaml` (file reading and YAML parsing are external collaborators).
Mapping keys are modelled as strings: every key the resolver consults is a
string, and the source itself unwraps `as_str` on variant-map keys. -/
inductive YVal where
  | nullY
  | boolY (b : Bool)
  | intY (n : Int)
  | strY (s : String)
  | seqY (xs : List YVal)
  | mapY (kvs : List (String × YVal))

/-- Mapping view of a YAML value (`Value::as_mapping`). -/
def YVal.as_mapping : YVal → Option (List (String × YVal))
  | .mapY m => some m
  | _ => none

/-- Sequence view of a YAML value (`Value::as_sequence`). -/
def YVal.as_sequence : YVal → Option (List YVal)
  | .seqY xs => some xs
  | _ => none

/-- String view of a YAML value (`Value::as_str`). -/
def YVal.as_str : YVal → Option String
  | .strY s => some s
  | _ => none

/-- Unsigned view of a YAML value (`Value::as_u64`). -/
def YVal.as_u64 : YVal → Option Nat
  | .intY n => if 0 ≤ n then some n.toNat else none
  | _ => none

/-- Boolean view of a YAML value (`Value::as_bool`). -/
def YVal.as_bool : YVal → Option Bool
  | .boolY b => some b
  | _ => none

/-- Key access on a YAML value (`Value::get`): a lookup when the value is a
mapping, `None` otherwise. -/
def YVal.getKey (v : YVal) (k : String) : Option YVal :=
  v.as_mapping.bind (fun m => lookupKV m k)

/-- The partially resolved configuration `ProtoConfig` from `config.rs`. -/
structure ProtoConfig where
  name : Option String
  variant : Option String
  setup : Option (List String)
  teardown : Option (List String)
  run : Option (List String)
  timeout : Option Nat
  env : List (String × String)
  cachegrind : Bool
  iterations : Nat
  variants : Option (List String)
deriving DecidableEq

/-- The resolved configuration `Config` from `config.rs`; compared with
`ProtoConfig`, the run command vector is required. -/
structure Config where
  name : Option String
  variant : Option String
  setup : Option (List String)
  teardown : Option (List String)
  run : List String
  timeout : Option Nat
  env : List (String × String)
  cachegrind : Bool
  iterations : Nat
  variants : Option (List String)
deriving DecidableEq

/-- The `TryFrom<ProtoConfig> for Config` conversion from `config.rs`
(lines 40-60): fail unless `run` was provided. -/
def tryFromProto (p : ProtoConfig) : Except String Config :=
  match p.run with
  | none => .error "run must be provided"
  | some run =>
    .ok ⟨p.name, p.variant, p.setup, p.teardown, run, p.timeout, p.env,
      p.cachegrind, p.iterations, p.variants⟩

/-- Model of `shlex::split` (the shlex crate, an external collaborator; the
spec leaves shell tokenization out of scope): whitespace tokenization into
words.  Quoting and escaping, the only sources of a `None` result in the
crate, are not exercised by the claims; on an empty or all-whitespace
string the crate returns an empty word list, as this model does. -/
def shlexSplit (s : String) : Option (List String) :=
  some (((splitOnChar ' ' s.data).filter (fun w => decide (w ≠ []))).map
    (fun w => String.mk w))

/-- Environment-variable inputs the config resolver reads (`SIRUN_NAME`
and `SIRUN_VARIANT`). -/
structure OsEnv where
  sirunName : Option String
  sirunVariant : Option String

/-- The function `get_shell_command` from `config.rs` (lines 62-75): the
value at the key must be a string that tokenizes as a shell command.  The
source unwraps the key lookup because every caller has checked
`contains_key`; an absent key is mapped to an error here. -/
def get_shell_command (obj : List (String × YVal)) (key : String) :
    Except String (List String) :=
  match lookupKV obj key with
  | none => .error "key not present"
  | some v =>
    match v.as_str with
    | none => .error "must be a string"
    | some s =>
      match shlexSplit s with
      | none => .error "must be a properly formed shell command"
      | some ws => .ok ws

/-- The loop of `get_env` from `config.rs` (lines 81-89) over the entries:
every value must be a string.  The source also checks that every key is a
string, which is immediate in this model where mapping keys are strings. -/
def goEnv (acc : List (String × String)) :
    List (String × YVal) → Except String (List (String × String))
  | [] => .ok acc
  | (k, v) :: rest =>
    match v.as_str with
    | none => .error "env vars must be strings"
    | some s => goEnv (insertKV acc k s) rest

/-- The function `get_env` from `config.rs`: the `env` value must be a
mapping of strings. -/
def get_env (acc : List (String × String)) (v : YVal) :
    Except String (List (String × String)) :=
  match v.as_mapping with
  | none => .error "env must be an object"
  | some m => goEnv acc m

/-- The `name` block of `apply_config` (`config.rs` lines 108-117):
`SIRUN_NAME` overrides, otherwise a present `name` key must be a string. -/
def applyName (os : OsEnv) (cv : List (String × YVal)) (c : ProtoConfig) :
    Except String ProtoConfig :=
  match os.sirunName with
  | some n => .ok { c with name := some n }
  | none =>
    match lookupKV cv "name" with
    | none => .ok c
    | some nv =>
      match nv.as_str with
      | none => .error "name must be a string"
      | some s => .ok { c with name := some s }

/-- The `run` block of `apply_config` (`config.rs` lines 119-121). -/
def applyRun (cv : List (String × YVal)) (c : ProtoConfig) :
    Except String ProtoConfig :=
  if (lookupKV cv "run").isSome then
    (get_shell_command cv "run").map (fun ws => { c with run := some ws })
  else .ok c

/-- The `setup` block of `apply_config` (`config.rs` lines 123-125). -/
def applySetup (cv : List (String × YVal)) (c : ProtoConfig) :
    Except String ProtoConfig :=
  if (lookupKV cv "setup").isSome then
    (get_shell_command cv "setup").map (fun ws => { c with setup := some ws })
  else .ok c

/-- The `teardown` block of `apply_config` (`config.rs` lines 127-129). -/
def applyTeardown (cv : List (String × YVal)) (c : ProtoConfig) :
    Except String ProtoConfig :=
  if (lookupKV cv "teardown").isSome then
    (get_shell_command cv "teardown").map
      (fun ws => { c with teardown := some ws })
  else .ok c

/-- The `timeout` block of `apply_config` (`config.rs` lines 131-137). -/
def applyTimeout (cv : List (String × YVal)) (c : ProtoConfig) :
    Except String ProtoConfig :=
  match lookupKV cv "timeout" with
  | none => .ok c
  | some tv =>
    match tv.as_u64 with
    | none => .error "timeout must be a positive integer"
    | some t => .ok { c with timeout := some t }

/-- The `cachegrind` block of `apply_config` (`config.rs` lines 139-143). -/
def applyCachegrind (cv : List (String × YVal)) (c : ProtoConfig) :
    Except String ProtoConfig :=
  match lookupKV cv "cachegrind" with
  | none => .ok c
  | some bv =>
    match bv.as_bool with
    | none => .error "cachegrind must be a boolean"
    | some b => .ok { c with cachegrind := b }

/-- The `iterations` block of `apply_config` (`config.rs` lines 145-150):
the value must be an unsigned integer and, by the `ensure!`, positive. -/
def applyIterations (cv : List (String × YVal)) (c : ProtoConfig) :
    Except String ProtoConfig :=
  match lookupKV cv "iterations" with
  | none => .ok c
  | some iv =>
    match iv.as_u64 with
    | none => .error "iterations must be an integer gte 1"
    | some n =>
      if 0 < n then .ok { c with iterations := n }
      else .error "iterations must be an integer gte 1"

/-- The `env` block of `apply_config` (`config.rs` lines 152-154). -/
def applyEnv (cv : List (String × YVal)) (c : ProtoConfig) :
    Except String ProtoConfig :=
  match lookupKV cv "env" with
  | none => .ok c
  | some ev => (get_env c.env ev).map (fun e => { c with env := e })

/-- The function `apply_config` from `config.rs` (lines 103-156): the value
must be a mapping, and the field blocks run in source order. -/
def apply_config (os : OsEnv) (c : ProtoConfig) (configVal : YVal) :
    Except String ProtoConfig :=
  match configVal.as_mapping with
  | none => .error "invalid json"
  | some cv =>
    (applyName os cv c).bind (fun c1 =>
    (applyRun cv c1).bind (fun c2 =>
    (applySetup cv c2).bind (fun c3 =>
    (applyTeardown cv c3).bind (fun c4 =>
    (applyTimeout cv c4).bind (fun c5 =>
    (applyCachegrind cv c5).bind (fun c6 =>
    (applyIterations cv c6).bind (fun c7 =>
    applyEnv cv c7)))))))

/-- Model of `str::parse::<usize>` on the variant key, covering the plain
digit strings the claims exercise. -/
def parseNatStr (s : String) : Option Nat := parseDigits s.data

/-- The initial `ProtoConfig` of `get_config` (`config.rs` lines 159-170):
everything absent, no environment overlay, `cachegrind` false and a default
of one iteration. -/
def initialProto : ProtoConfig :=
  ⟨none, none, none, none, none, none, [], false, 1, none⟩

/-- The function `get_config` from `config.rs` (lines 158-219), taking the
parsed configuration document and the relevant environment variables.
After the base `apply_config`, a present `variants` key is resolved: with
no `SIRUN_VARIANT` the variant identifiers are collected and returned for
the fan-out; with a selected key, an array is indexed (the index must parse
and be in range) or a map is looked up (the key must exist), the selection
is recorded in `variant`, and the chosen overlay is applied on top. -/
def get_config (os : OsEnv) (configVal : YVal) : Except String Config :=
  (apply_config os initialProto configVal).bind (fun config =>
    match configVal.getKey "variants" with
    | none => tryFromProto config
    | some variants =>
      match os.sirunVariant with
      | none =>
        match variants.as_sequence with
        | some vs =>
          tryFromProto { config with
            variants := some ((List.range vs.length).map (fun i => toString i)) }
        | none =>
          match variants.as_mapping with
          | some m =>
            tryFromProto { config with variants := some (m.map Prod.fst) }
          | none => .error "variants must be an array or object"
      | some variantKey =>
        let config := { config with variant := some variantKey }
        let chosen : Except String YVal :=
          match variants.as_sequence with
          | some vs =>
            match parseNatStr variantKey with
            | none => .error "invalid variant index"
            | some id =>
              if h : id < vs.length then .ok (vs.get ⟨id, h⟩)
              else .error "variant index does not exist in array"
          | none =>
            match variants.as_mapping with
            | some m =>
              match lookupKV m variantKey with
              | some v => .ok v
              | none => .error "variant key does not exist in object"
            | none => .error "variants must be array or object"
        chosen.bind (fun configJson =>
          (apply_config os config configJson).bind tryFromProto))

/-! Helper lemmas about the association-list operations and `Except`. -/

theorem lookupKV_insertKV_self {α : Type} (m : List (String × α)) (k : String)
    (v : α) : lookupKV (insertKV m k v) k = some v := by
  induction m with
  | nil => simp [insertKV, lookupKV]
  | cons p rest ih =>
    obtain ⟨k0, v0⟩ := p
    by_cases h : k0 = k
    · simp [insertKV, lookupKV, h]
    · simp [insertKV, lookupKV, h, ih]

theorem lookupKV_insertKV_ne {α : Type} (m : List (String × α))
    (k k2 : String) (v : α) (h : k ≠ k2) :
    lookupKV (insertKV m k2 v) k = lookupKV m k := by
  induction m with
  | nil => simp [insertKV, lookupKV, Ne.symm h]
  | cons p rest ih =>
    obtain ⟨k0, v0⟩ := p
    by_cases h0 : k0 = k2
    · subst h0
      simp [insertKV, lookupKV, Ne.symm h]
    · simp only [insertKV, if_neg h0, lookupKV]
      by_cases h1 : k0 = k
      · simp [h1]
      · simp [h1, ih]

theorem bindE_ok {ε α β : Type} {e : Except ε α} {f : α → Except ε β}
    {b : β} (h : e.bind f = .ok b) : ∃ a, e = .ok a ∧ f a = .ok b := by
  cases e with
  | error err => simp [Except.bind] at h
  | ok a => exact ⟨a, rfl, h⟩

theorem bindE_isOk_false {ε α β : Type} {e : Except ε α}
    {f : α → Except ε β} (h : ∀ a, e = .ok a → ((f a).isOk = false)) :
    ((e.bind f).isOk : Bool) = false := by
  cases e with
  | error err => rfl
  | ok a => exact h a rfl

theorem mapE_ok {ε α β : Type} {e : Except ε α} {g : α → β} {b : β}
    (h : e.map g = .ok b) : ∃ a, e = .ok a ∧ g a = b := by
  cases e with
  | error err => simp [Except.map] at h
  | ok a =>
    refine ⟨a, rfl, ?_⟩
    simpa [Except.map] using h

/-! Helper lemmas about `get_config`: every field block of `apply_config`
preserves the variant field, and only the iterations block changes the
iteration count, keeping it positive. -/

theorem applyName_fields (os : OsEnv) (cv : List (String × YVal))
    (c c' : ProtoConfig) (h : applyName os cv c = .ok c') :
    c'.iterations = c.iterations ∧ c'.variant = c.variant := by
  unfold applyName at h
  split at h
  · cases h; exact ⟨rfl, rfl⟩
  · split at h
    · cases h; exact ⟨rfl, rfl⟩
    · split at h
      · cases h
      · cases h; exact ⟨rfl, rfl⟩

theorem applyRun_fields (cv : List (String × YVal)) (c c' : ProtoConfig)
    (h : applyRun cv c = .ok c') :
    c'.iterations = c.iterations ∧ c'.variant = c.variant := by
  unfold applyRun at h
  split at h
  · obtain ⟨ws, _, hc⟩ := mapE_ok h
    subst hc
    exact ⟨rfl, rfl⟩
  · cases h; exact ⟨rfl, rfl⟩

theorem applySetup_fields (cv : List (String × YVal)) (c c' : ProtoConfig)
    (h : applySetup cv c = .ok c') :
    c'.iterations = c.iterations ∧ c'.variant = c.variant := by
  unfold applySetup at h
  split at h
  · obtain ⟨ws, _, hc⟩ := mapE_ok h
    subst hc
    exact ⟨rfl, rfl⟩
  · cases h; exact ⟨rfl, rfl⟩

theorem applyTeardown_fields (cv : List (String × YVal)) (c c' : ProtoConfig)
    (h : applyTeardown cv c = .ok c') :
    c'.iterations = c.iterations ∧ c'.variant = c.variant := by
  unfold applyTeardown at h
  split at h
  · obtain ⟨ws, _, hc⟩ := mapE_ok h
    subst hc
    exact ⟨rfl, rfl⟩
  · cases h; exact ⟨rfl, rfl⟩

theorem applyTimeout_fields (cv : List (String × YVal)) (c c' : ProtoConfig)
    (h : applyTimeout cv c = .ok c') :
    c'.iterations = c.iterations ∧ c'.variant = c.variant := by
  unfold applyTimeout at h
  split at h
  · cases h; exact ⟨rfl, rfl⟩
  · split at h
    · cases h
    · cases h; exact ⟨rfl, rfl⟩

theorem applyCachegrind_fields (cv : List (String × YVal))
    (c c' : ProtoConfig) (h : applyCachegrind cv c = .ok c') :
    c'.iterations = c.iterations ∧ c'.variant = c.variant := by
  unfold applyCachegrind at h
  split at h
  · cases h; exact ⟨rfl, rfl⟩
  · split at h
    · cases h
    · cases h; exact ⟨rfl, rfl⟩

theorem applyIterations_fields (cv : List (String × YVal))
    (c c' : ProtoConfig) (h : applyIterations cv c = .ok c') :
    (0 < c.iterations → 0 < c'.iterations) ∧ c'.variant = c.variant := by
  unfold applyIterations at h
  split at h
  · cases h; exact ⟨fun hp => hp, rfl⟩
  · split at h
    · cases h
    · split at h
      · rename_i hn
        cases h
        exact ⟨fun _ => hn, rfl⟩
      · cases h

theorem applyEnv_fields (cv : List (String × YVal)) (c c' : ProtoConfig)
    (h : applyEnv cv c = .ok c') :
    c'.iterations = c.iterations ∧ c'.variant = c.variant := by
  unfold applyEnv at h
  split at h
  · cases h; exact ⟨rfl, rfl⟩
  · obtain ⟨e, _, hc⟩ := mapE_ok h
    subst hc
    exact ⟨rfl, rfl⟩

theorem apply_config_fields (os : OsEnv) (c : ProtoConfig) (v : YVal)
    (c' : ProtoConfig) (h : apply_config os c v = .ok c') :
    (0 < c.iterations → 0 < c'.iterations) ∧ c'.variant = c.variant := by
  unfold apply_config at h
  split at h
  · cases h
  · obtain ⟨c1, h1, h⟩ := bindE_ok h
    obtain ⟨c2, h2, h⟩ := bindE_ok h
    obtain ⟨c3, h3, h⟩ := bindE_ok h
    obtain ⟨c4, h4, h⟩ := bindE_ok h
    obtain ⟨c5, h5, h⟩ := bindE_ok h
    obtain ⟨c6, h6, h⟩ := bindE_ok h
    obtain ⟨c7, h7, h⟩ := bindE_ok h
    have e1 := applyName_fields _ _ _ _ h1
    have e2 := applyRun_fields _ _ _ h2
    have e3 := applySetup_fields _ _ _ h3
    have e4 := applyTeardown_fields _ _ _ h4
    have e5 := applyTimeout_fields _ _ _ h5
    have e6 := applyCachegrind_fields _ _ _ h6
    have e7 := applyIterations_fields _ _ _ h7
    have e8 := applyEnv_fields _ _ _ h
    constructor
    · intro hp
      have h6i : c6.iterations = c.iterations := by
        rw [e6.1, e5.1, e4.1, e3.1, e2.1, e1.1]
      rw [e8.1]
      exact e7.1 (by rw [h6i]; exact hp)
    · rw [e8.2, e7.2, e6.2, e5.2, e4.2, e3.2, e2.2, e1.2]

theorem tryFromProto_fields (p : ProtoConfig) (c : Config)
    (h : tryFromProto p = .ok c) :
    c.iterations = p.iterations ∧ c.variant = p.variant := by
  unfold tryFromProto at h
  cases hrun : p.run with
  | none => simp [hrun] at h
  | some run =>
    simp only [hrun] at h
    cases h
    exact ⟨rfl, rfl⟩

theorem get_config_ok_iterations (os : OsEnv) (v : YVal) (c : Config)
    (h : get_config os v = .ok c) : 1 ≤ c.iterations := by
  unfold get_config at h
  obtain ⟨p, hp, h⟩ := bindE_ok h
  have hpos : 0 < p.iterations :=
    (apply_config_fields os initialProto v p hp).1 (by norm_num [initialProto])
  dsimp only at h
  split at h
  · have hf := tryFromProto_fields p c h
    omega
  · split at h
    · split at h
      · have hf := tryFromProto_fields _ c h
        have hi : c.iterations = p.iterations := hf.1
        omega
      · split at h
        · have hf := tryFromProto_fields _ c h
          have hi : c.iterations = p.iterations := hf.1
          omega
        · cases h
    · obtain ⟨cj, hcj, h⟩ := bindE_ok h
      obtain ⟨p2, hp2, h⟩ := bindE_ok h
      have hpos2 : 0 < p2.iterations :=
        (apply_config_fields _ _ _ _ hp2).1 hpos
      have hf := tryFromProto_fields p2 c h
      omega

theorem get_config_seq_out_of_range (os : OsEnv) (v : YVal) (vs : List YVal)
    (k : String) (id : Nat) (hos : os.sirunVariant = some k)
    (hvar : v.getKey "variants" = some (.seqY vs))
    (hid : parseNatStr k = some id) (hlen : vs.length ≤ id) :
    (get_config os v).isOk = false := by
  unfold get_config
  apply bindE_isOk_false
  intro p _
  dsimp only
  rw [hvar, hos]
  simp only [YVal.as_sequence, hid]
  rw [dif_neg (by omega)]
  rfl

theorem get_config_map_missing_key (os : OsEnv) (v : YVal)
    (m : List (String × YVal)) (k : String)
    (hos : os.sirunVariant = some k)
    (hvar : v.getKey "variants" = some (.mapY m))
    (hlook : lookupKV m k = none) :
    (get_config os v).isOk = false := by
  unfold get_config
  apply bindE_isOk_false
  intro p _
  dsimp only
  rw [hvar, hos]
  simp only [YVal.as_sequence, YVal.as_mapping, hlook]
  rfl

theorem get_config_variant_recorded (os : OsEnv) (v w : YVal)
    (k : String) (c : Config) (hos : os.sirunVariant = some k)
    (hvar : v.getKey "variants" = some w)
    (h : get_config os v = .ok c) : c.variant = some k := by
  unfold get_config at h
  obtain ⟨p, hp, h⟩ := bindE_ok h
  dsimp only at h
  rw [hvar, hos] at h
  obtain ⟨cj, hcj, h⟩ := bindE_ok h
  obtain ⟨p2, hp2, h⟩ := bindE_ok h
  have hv2 : p2.variant = some k := (apply_config_fields _ _ _ _ hp2).2
  have hv3 : c.variant = p2.variant := (tryFromProto_fields _ _ h).2
  rw [hv3, hv2]

theorem get_config_distinct_selection (os1 os2 : OsEnv) (v w : YVal)
    (k1 k2 : String) (c1 c2 : Config) (h1 : os1.sirunVariant = some k1)
    (h2 : os2.sirunVariant = some k2)
    (hvar : v.getKey "variants" = some w) (hk : k1 ≠ k2)
    (hc1 : get_config os1 v = .ok c1) (hc2 : get_config os2 v = .ok c2) :
    c1 ≠ c2 := by
  intro he
  apply hk
  have r1 := get_config_variant_recorded os1 v w k1 c1 h1 hvar hc1
  have r2 := get_config_variant_recorded os2 v w k2 c2 h2 hvar hc2
  rw [he] at r1
  rw [r1] at r2
  exact Option.some.inj r2

/-! Helper lemmas about the setup/teardown retry loop. -/

theorem setupLoopAux_allFail (sts : Nat → ExitStatus)
    (hfail : ∀ i, ∃ c, sts i = .code c ∧ c ≠ 0) :
    ∀ fuel a, setupLoopAux sts fuel a = ⟨.budgetExhausted, fuel, fuel⟩ := by
  intro fuel
  induction fuel with
  | zero => intro a; rfl
  | succ n ih =>
    intro a
    obtain ⟨c, hc, hc0⟩ := hfail a
    simp [setupLoopAux, hc, hc0, ih (a + 1)]

/-- C5: if a setup (or teardown) command never exits with status 0, the
retry loop runs it exactly 100 times, sleeps one second after each failed
attempt, and then fails fatally with the did-not-complete-successfully
error, and the iteration aborts without the measured command being spawned
(the boolean of `run_iteration` is false). -/
theorem setup_never_succeeds_fatal (inp : IterInput) (cmd : List String)
    (hskip : inp.skipSetup = false) (hcmd : inp.setup = some cmd)
    (hfail : ∀ i, ∃ c, inp.setupStatuses i = .code c ∧ c ≠ 0) :
    run_setup_or_teardown inp.skipSetup inp.setup inp.setupStatuses
      = ⟨.budgetExhausted, 100, 100⟩
    ∧ run_iteration inp = (.setupFailed .budgetExhausted, false) := by
  have hloop : run_setup_or_teardown inp.skipSetup inp.setup inp.setupStatuses
      = ⟨.budgetExhausted, 100, 100⟩ := by
    rw [hskip, hcmd]
    simpa [run_setup_or_teardown, setupLoop] using
      setupLoopAux_allFail inp.setupStatuses hfail 100 0
  refine ⟨hloop, ?_⟩
  unfold run_iteration
  rw [hloop]

/-- Closed witness for `setup_never_succeeds_fatal`: a setup command whose
every attempt exits with code 1. -/
theorem setup_never_succeeds_fatal_witness :
    run_setup_or_teardown false (some ["s"]) (fun _ => .code 1)
      = ⟨.budgetExhausted, 100, 100⟩
    ∧ run_iteration
        ⟨false, some ["s"], none, fun _ => .code 1, .code 0, [],
          fun _ => .code 0⟩
      = (.setupFailed .budgetExhausted, false) :=
  setup_never_succeeds_fatal
    ⟨false, some ["s"], none, fun _ => .code 1, .code 0, [], fun _ => .code 0⟩
    ["s"] rfl rfl (fun _ => ⟨1, rfl, by decide⟩)

/-- C9: when a setup or teardown attempt is terminated by a signal (no exit
code), the loop bails immediately with an error naming the signal: that
call performs no sleep and no further run, regardless of the remaining
budget; and at the top level a first-attempt signal ends
`run_setup_or_teardown` after exactly one run. -/
theorem setup_signal_fatal_immediately :
    (∀ (sts : Nat → ExitStatus) (fuel a : Nat) (s : Int),
        sts a = .signal s →
        setupLoopAux sts (fuel + 1) a = ⟨.signalled s, 0, 1⟩)
    ∧ (∀ (sts : Nat → ExitStatus) (cmd : List String) (s : Int),
        sts 0 = .signal s →
        run_setup_or_teardown false (some cmd) sts = ⟨.signalled s, 0, 1⟩) := by
  have h1 : ∀ (sts : Nat → ExitStatus) (fuel a : Nat) (s : Int),
      sts a = .signal s →
      setupLoopAux sts (fuel + 1) a = ⟨.signalled s, 0, 1⟩ := by
    intro sts fuel a s hsig
    simp [setupLoopAux, hsig]
  refine ⟨h1, fun sts cmd s hsig => ?_⟩
  simpa [run_setup_or_teardown, setupLoop] using h1 sts 99 0 s hsig

/-- Closed witness for `setup_signal_fatal_immediately`: a first attempt
terminated by signal 9. -/
theorem setup_signal_fatal_immediately_witness :
    setupLoopAux (fun _ => .signal 9) 100 0 = ⟨.signalled 9, 0, 1⟩
    ∧ run_setup_or_teardown false (some ["t"]) (fun _ => .signal 9)
      = ⟨.signalled 9, 0, 1⟩ :=
  ⟨setup_signal_fatal_immediately.1 (fun _ => .signal 9) 99 0 9 rfl,
   setup_signal_fatal_immediately.2 (fun _ => .signal 9) ["t"] 9 rfl⟩

/-- C6: in every recorded metrics map, `cpu.pct.wall.time` equals
`(user.time + system.time) * 100 / wall.time` where the user and system
times are the resource-usage delta components and the wall time is the
measured duration (exact rational model of the f64 arithmetic; a zero wall
time, where IEEE division has no finite value, is excluded). -/
theorem cpu_pct_wall_time_formula (w : ℚ) (ru : Rusage)
    (m : List (String × MetricValue)) (_hw : w ≠ 0) :
    ∃ u s p : ℚ,
      lookupKV (get_kernel_metrics w ru m) "user.time" = some (.num (.fin u))
      ∧ lookupKV (get_kernel_metrics w ru m) "system.time"
        = some (.num (.fin s))
      ∧ lookupKV (get_kernel_metrics w ru m) "cpu.pct.wall.time"
        = some (.num (.fin p))
      ∧ p = (u + s) * 100 / w := by
  refine ⟨ru.user_time, ru.system_time,
    (ru.user_time + ru.system_time) * 100 / w, ?_, ?_, ?_, rfl⟩
  · unfold get_kernel_metrics
    rw [lookupKV_insertKV_ne _ _ _ _ (by decide),
      lookupKV_insertKV_ne _ _ _ _ (by decide), lookupKV_insertKV_self]
  · unfold get_kernel_metrics
    rw [lookupKV_insertKV_ne _ _ _ _ (by decide), lookupKV_insertKV_self]
  · unfold get_kernel_metrics
    rw [lookupKV_insertKV_self]

/-- Closed witness for `cpu_pct_wall_time_formula` at wall time 2 and a
delta of 6 user and 4 system microseconds: the percentage is 500. -/
theorem cpu_pct_wall_time_formula_witness :
    ∃ u s p : ℚ,
      lookupKV (get_kernel_metrics 2 ⟨6, 4, 1⟩ []) "user.time"
        = some (.num (.fin u))
      ∧ lookupKV (get_kernel_metrics 2 ⟨6, 4, 1⟩ []) "system.time"
        = some (.num (.fin s))
      ∧ lookupKV (get_kernel_metrics 2 ⟨6, 4, 1⟩ []) "cpu.pct.wall.time"
        = some (.num (.fin p))
      ∧ p = (u + s) * 100 / 2 :=
  cpu_pct_wall_time_formula 2 ⟨6, 4, 1⟩ [] (by norm_num)

/-- C7: when every one of the N iterations succeeds, the iterations vector
collected by the main loop is exactly the N per-iteration maps in iteration
order, and it has exactly N entries. -/
theorem iterations_entry_has_n_entries (N : Nat)
    (iter : Nat → Except Unit (List (String × MetricValue)))
    (f : Nat → List (String × MetricValue))
    (h : ∀ i, i < N → iter i = .ok (f i)) :
    gatherIterations iter N
      = .ok ((List.range N).map (fun i => MetricValue.map (f i)))
    ∧ ((List.range N).map (fun i => MetricValue.map (f i))).length = N := by
  refine ⟨?_, by simp⟩
  induction N with
  | zero => rfl
  | succ n ih =>
    show (gatherIterations iter n).bind
        (fun acc => (iter n).bind
          (fun m => pure (acc ++ [MetricValue.map m]))) = _
    rw [ih (fun i hi => h i (Nat.lt_trans hi (Nat.lt_succ_self n))),
      h n (Nat.lt_succ_self n)]
    show Except.ok (_ ++ [MetricValue.map (f n)]) = _
    rw [List.range_succ]
    simp

/-- Closed witness for `iterations_entry_has_n_entries` at N = 2 with empty
per-iteration maps. -/
theorem iterations_entry_has_n_entries_witness :
    gatherIterations (fun _ => .ok []) 2
      = .ok ((List.range 2).map (fun _ => MetricValue.map []))
    ∧ ((List.range 2).map
        (fun _ => MetricValue.map ([] : List (String × MetricValue)))).length
      = 2 :=
  iterations_entry_has_n_entries 2 (fun _ => .ok []) (fun _ => [])
    (fun _ _ => rfl)

/-- C8 (code bug): the drain of `get_statsd_metrics` is not atomic.  With
the buffer holding one line, a datagram appended by the listener between
the read-locked clone and the separately write-locked clear is neither in
the drained snapshot (so its metric is not returned) nor in the buffer
afterwards (the clear discards it): the line is lost. -/
theorem statsd_drain_loses_interleaved_line :
    drainWithAppends ("a:1|g\n".data) [] [("b:2|g\n".data)] []
      = ("a:1|g\n".data, [])
    ∧ get_statsd_metrics ("a:1|g\n".data) = .ok [("a", .num (.fin 1))]
    ∧ "b:2|g".data ∉ statsdLines ("a:1|g\n".data)
    ∧ "b:2|g".data ∉ statsdLines [] := by
  exact ⟨by decide, rfl, by decide, by decide⟩

/-- C1 (code bug): for the observations [1, 3] of key x collected across
two iterations, the summarizer computes mean 2, population stddev 1 (the
radicand reaching `f64::sqrt` is the mean squared deviation), stddev_pct 50
and min 1 exactly as the claim states — but the max fold is seeded with
`f64::INFINITY` (`summarize.rs` line 51), the identity of min rather than
max, so the reported max is positive infinity and not the greatest
observation 3. -/
theorem summarize_stats_max_is_infinity (fsqrt : F → F)
    (hsq : fsqrt (F.fin 1) = F.fin 1) :
    summary fsqrt [.map [("x", .num (.fin 1))], .map [("x", .num (.fin 3))]]
      = some (.map [("x", .map (keyStatistics fsqrt [F.fin 1, F.fin 3]))])
    ∧ lookupKV (keyStatistics fsqrt [F.fin 1, F.fin 3]) "mean"
      = some (.num (.fin 2))
    ∧ lookupKV (keyStatistics fsqrt [F.fin 1, F.fin 3]) "stddev"
      = some (.num (.fin 1))
    ∧ lookupKV (keyStatistics fsqrt [F.fin 1, F.fin 3]) "stddev_pct"
      = some (.num (.fin 50))
    ∧ lookupKV (keyStatistics fsqrt [F.fin 1, F.fin 3]) "min"
      = some (.num (.fin 1))
    ∧ lookupKV (keyStatistics fsqrt [F.fin 1, F.fin 3]) "max"
      = some (.num F.inf)
    ∧ F.inf ≠ F.fin 3 := by
  have hm : mean [F.fin 1, F.fin 3] = F.fin 2 := by
    norm_num [mean, F.sum, F.add, F.div]
  have hs : stddev fsqrt (mean [F.fin 1, F.fin 3]) [F.fin 1, F.fin 3]
      = F.fin 1 := by
    rw [stddev, hm]
    have hr : mean ([F.fin 1, F.fin 3].map
        (fun x => F.mul (F.sub x (F.fin 2)) (F.sub x (F.fin 2)))) = F.fin 1 := by
      norm_num [mean, F.sum, F.add, F.div, F.sub, F.mul]
    rw [hr, hsq]
  refine ⟨rfl, ?_, ?_, ?_, ?_, rfl, fun h => F.noConfusion h⟩
  · show some (MetricValue.num (mean [F.fin 1, F.fin 3])) = _
    rw [hm]
  · show some (MetricValue.num
      (stddev fsqrt (mean [F.fin 1, F.fin 3]) [F.fin 1, F.fin 3])) = _
    rw [hs]
  · show some (MetricValue.num (F.mul (F.div
      (stddev fsqrt (mean [F.fin 1, F.fin 3]) [F.fin 1, F.fin 3])
      (mean [F.fin 1, F.fin 3])) (F.fin 100))) = _
    rw [hs, hm]
    norm_num [F.div, F.mul]
  · show some (MetricValue.num ([F.fin 1, F.fin 3].foldl F.fmin F.inf)) = _
    norm_num [F.fmin, min_def]

/-- Closed witness for `summarize_stats_max_is_infinity`, instantiating the
square-root model at the constant function with value 1 (the only radicand
reached is the perfect square 1). -/
theorem summarize_stats_max_is_infinity_witness :
    summary (fun _ => F.fin 1)
        [.map [("x", .num (.fin 1))], .map [("x", .num (.fin 3))]]
      = some (.map
          [("x", .map (keyStatistics (fun _ => F.fin 1) [F.fin 1, F.fin 3]))])
    ∧ lookupKV (keyStatistics (fun _ => F.fin 1) [F.fin 1, F.fin 3]) "mean"
      = some (.num (.fin 2))
    ∧ lookupKV (keyStatistics (fun _ => F.fin 1) [F.fin 1, F.fin 3]) "stddev"
      = some (.num (.fin 1))
    ∧ lookupKV (keyStatistics (fun _ => F.fin 1) [F.fin 1, F.fin 3])
        "stddev_pct" = some (.num (.fin 50))
    ∧ lookupKV (keyStatistics (fun _ => F.fin 1) [F.fin 1, F.fin 3]) "min"
      = some (.num (.fin 1))
    ∧ lookupKV (keyStatistics (fun _ => F.fin 1) [F.fin 1, F.fin 3]) "max"
      = some (.num F.inf)
    ∧ F.inf ≠ F.fin 3 :=
  summarize_stats_max_is_infinity (fun _ => F.fin 1) rfl

/-- C2 (counterexample): with the buffer holding a well-formed line followed
by a line whose value portion does not parse as a number, the drain does
not succeed — `get_statsd_metrics` propagates the parse failure as an error
(the source `?` operator on `metric[1].parse::<f64>()`), and no metrics are
returned to the caller. -/
theorem statsd_bad_value_errors_drain :
    get_statsd_metrics ("a:1|g\nfoo:bar|g".data) = .error () := rfl

/-- C2 (amended): a received line with fewer than two colon-separated parts
before the first pipe is silently skipped and draining continues with the
remaining lines; but a line whose value portion fails to parse as a number
makes the whole drain return an error; and when every line with a value
portion parses as a number, draining succeeds. -/
theorem statsd_skip_and_error :
    (∀ (metrics : List (String × MetricValue)) (rest : List (List Char))
        (line : List Char), (metricParts line).length < 2 →
        processStatsdLines metrics (line :: rest)
          = processStatsdLines metrics rest)
    ∧ (∀ (metrics : List (String × MetricValue)) (rest : List (List Char))
        (line k v : List Char) (t : List (List Char)),
        metricParts line = k :: v :: t → parseF64 v = none →
        processStatsdLines metrics (line :: rest) = .error ())
    ∧ (∀ (ls : List (List Char)) (metrics : List (String × MetricValue)),
        (∀ l ∈ ls, ∀ k v t, metricParts l = k :: v :: t →
          (parseF64 v).isSome) →
        (processStatsdLines metrics ls).isOk = true) := by
  refine ⟨?_, ?_, ?_⟩
  · intro metrics rest line hlen
    cases hm : metricParts line with
    | nil => simp [processStatsdLines, hm]
    | cons k t =>
      cases t with
      | nil => simp [processStatsdLines, hm]
      | cons v t2 =>
        rw [hm] at hlen
        exfalso
        simp at hlen
        omega
  · intro metrics rest line k v t hm hp
    simp [processStatsdLines, hm, hp]
  · intro ls
    induction ls with
    | nil => intro metrics _; rfl
    | cons l rest ih =>
      intro metrics h
      cases hm : metricParts l with
      | nil =>
        simp only [processStatsdLines, hm]
        exact ih metrics (fun x hx => h x (List.mem_cons_of_mem _ hx))
      | cons k t =>
        cases t with
        | nil =>
          simp only [processStatsdLines, hm]
          exact ih metrics (fun x hx => h x (List.mem_cons_of_mem _ hx))
        | cons v t2 =>
          have hp := h l (List.mem_cons_self _ _) k v t2 hm
          cases hpv : parseF64 v with
          | none => rw [hpv] at hp; simp at hp
          | some x =>
            simp only [processStatsdLines, hm, hpv]
            exact ih _ (fun y hy => h y (List.mem_cons_of_mem _ hy))

/-- Closed witness for `statsd_skip_and_error`: a line without a colon is
skipped, a non-numeric value errors the drain, and a numeric line
succeeds. -/
theorem statsd_skip_and_error_witness :
    processStatsdLines [] ["nocolon".data, "a:1|g".data]
      = processStatsdLines [] ["a:1|g".data]
    ∧ processStatsdLines [] ["foo:bar|g".data] = .error ()
    ∧ (processStatsdLines [] ["a:1|g".data]).isOk = true :=
  ⟨statsd_skip_and_error.1 [] ["a:1|g".data] "nocolon".data (by decide),
   statsd_skip_and_error.2.1 [] [] "foo:bar|g".data
     "foo".data "bar".data [] (by decide) (by decide),
   statsd_skip_and_error.2.2 ["a:1|g".data] []
     (by
       intro l hl k v t hmp
       have hl2 : l = "a:1|g".data := by simpa using hl
       subst hl2
       have hm2 : metricParts ("a:1|g".data) = ["a".data, "1".data] := by
         decide
       rw [hm2] at hmp
       injection hmp with hk h2
       injection h2 with hv h3
       subst hv
       decide)⟩

/-- C3 (counterexample): a measured command terminated by a signal does not
yield a recorded measurement — `run_test` reaches the
`status.code().expect(..)` call with no exit code and the process panics,
rather than recording an IterationResult as the claim states for signal
termination. -/
theorem run_test_signal_panics :
    run_test [] 5 ⟨3, 4, 100⟩ (.signal 2) = .panicked
    ∧ TestOutcome.panicked ≠ TestOutcome.ok (get_kernel_metrics 5 ⟨3, 4, 100⟩
        (insertKV [] "wall.time" (.num (.fin 5)))) :=
  ⟨rfl, fun h => TestOutcome.noConfusion h⟩

/-- C3 (amended): exit code 0 succeeds and records the metrics (with
`user.time` populated from the delta); a code in [1, 128] aborts the whole
invocation with that same code; a code above 128 is non-fatal and still
records a complete metrics map with `user.time` and `wall.time` populated;
but termination by a signal (no exit code) panics instead of recording. -/
theorem run_test_exit_classification :
    (∀ (m : List (String × MetricValue)) (w : ℚ) (ru : Rusage),
        ∃ ms, run_test m w ru (.code 0) = .ok ms
          ∧ lookupKV ms "user.time" = some (.num (.fin ru.user_time)))
    ∧ (∀ (m : List (String × MetricValue)) (w : ℚ) (ru : Rusage) (c : Int),
        1 ≤ c → c ≤ 128 → run_test m w ru (.code c) = .aborted c)
    ∧ (∀ (m : List (String × MetricValue)) (w : ℚ) (ru : Rusage) (c : Int),
        128 < c →
        ∃ ms, run_test m w ru (.code c) = .ok ms
          ∧ lookupKV ms "user.time" = some (.num (.fin ru.user_time))
          ∧ lookupKV ms "wall.time" = some (.num (.fin w)))
    ∧ (∀ (m : List (String × MetricValue)) (w : ℚ) (ru : Rusage) (s : Int),
        run_test m w ru (.signal s) = .panicked) := by
  have huser : ∀ (m : List (String × MetricValue)) (w : ℚ) (ru : Rusage),
      lookupKV (get_kernel_metrics w ru m) "user.time"
        = some (.num (.fin ru.user_time)) := by
    intro m w ru
    unfold get_kernel_metrics
    rw [lookupKV_insertKV_ne _ _ _ _ (by decide),
      lookupKV_insertKV_ne _ _ _ _ (by decide), lookupKV_insertKV_self]
  refine ⟨?_, ?_, ?_, fun m w ru s => rfl⟩
  · intro m w ru
    exact ⟨get_kernel_metrics w ru (insertKV m "wall.time" (.num (.fin w))),
      by simp [run_test], huser _ w ru⟩
  · intro m w ru c h1 h2
    have hc : c ≠ 0 := by omega
    simp [run_test, hc, h2]
  · intro m w ru c hc
    have hcond : ¬(c ≠ 0 ∧ c ≤ 128) := by omega
    refine ⟨get_kernel_metrics w ru (insertKV m "wall.time" (.num (.fin w))),
      by simp [run_test, hcond], huser _ w ru, ?_⟩
    unfold get_kernel_metrics
    rw [lookupKV_insertKV_ne _ _ _ _ (by decide),
      lookupKV_insertKV_ne _ _ _ _ (by decide),
      lookupKV_insertKV_ne _ _ _ _ (by decide),
      lookupKV_insertKV_ne _ _ _ _ (by decide), lookupKV_insertKV_self]

/-- Closed witness for `run_test_exit_classification` at codes 0, 5 and 130
and at signal 9. -/
theorem run_test_exit_classification_witness :
    (∃ ms, run_test [] 2 ⟨1, 1, 1⟩ (.code 0) = .ok ms
      ∧ lookupKV ms "user.time" = some (.num (.fin (1 : ℚ))))
    ∧ run_test [] 2 ⟨1, 1, 1⟩ (.code 5) = .aborted 5
    ∧ (∃ ms, run_test [] 2 ⟨1, 1, 1⟩ (.code 130) = .ok ms
      ∧ lookupKV ms "user.time" = some (.num (.fin (1 : ℚ)))
      ∧ lookupKV ms "wall.time" = some (.num (.fin (2 : ℚ))))
    ∧ run_test [] 2 ⟨1, 1, 1⟩ (.signal 9) = .panicked :=
  ⟨run_test_exit_classification.1 [] 2 ⟨1, 1, 1⟩,
   run_test_exit_classification.2.1 [] 2 ⟨1, 1, 1⟩ 5 (by norm_num)
     (by norm_num),
   run_test_exit_classification.2.2.1 [] 2 ⟨1, 1, 1⟩ 130 (by norm_num),
   run_test_exit_classification.2.2.2 [] 2 ⟨1, 1, 1⟩ 9⟩

/-- C4 (counterexample): a configuration whose run value is the empty
string resolves successfully to a Config whose run command vector is EMPTY:
resolution does not enforce a non-empty run vector, because the shell
tokenization of an empty string is an empty word list and the final
conversion only requires the field to be present. -/
theorem config_empty_run_resolves :
    get_config ⟨none, none⟩ (.mapY [("run", .strY "")])
      = .ok ⟨none, none, none, none, [], none, [], false, 1, none⟩ := rfl

/-- C4 (amended): after successful resolution `iterations` is at least 1
(and `run` is present, though possibly empty); selecting an out-of-range
array index or a missing map key makes `get_config` fail; and two
resolutions of the same document under distinct selected variant keys
yield distinct configurations (the selection is recorded in the variant
field). -/
theorem get_config_resolution :
    (∀ (os : OsEnv) (v : YVal) (c : Config),
        get_config os v = .ok c → 1 ≤ c.iterations)
    ∧ (∀ (os : OsEnv) (v : YVal) (vs : List YVal) (k : String) (id : Nat),
        os.sirunVariant = some k → v.getKey "variants" = some (.seqY vs) →
        parseNatStr k = some id → vs.length ≤ id →
        (get_config os v).isOk = false)
    ∧ (∀ (os : OsEnv) (v : YVal) (m : List (String × YVal)) (k : String),
        os.sirunVariant = some k → v.getKey "variants" = some (.mapY m) →
        lookupKV m k = none → (get_config os v).isOk = false)
    ∧ (∀ (os1 os2 : OsEnv) (v w : YVal) (k1 k2 : String) (c1 c2 : Config),
        os1.sirunVariant = some k1 → os2.sirunVariant = some k2 →
        v.getKey "variants" = some w → k1 ≠ k2 →
        get_config os1 v = .ok c1 → get_config os2 v = .ok c2 →
        c1 ≠ c2) :=
  ⟨get_config_ok_iterations, get_config_seq_out_of_range,
   get_config_map_missing_key, get_config_distinct_selection⟩

/-- Closed witness for `get_config_resolution`: the resolved default has one
iteration; index 2 into a two-variant array fails; key z missing from a
variant map fails; indices 0 and 1 of a two-variant array resolve to
distinct configurations. -/
theorem get_config_resolution_witness :
    1 ≤ (Config.mk none none none none ["true"] none [] false 1
      none).iterations
    ∧ (get_config ⟨none, some "2"⟩ (.mapY [("run", .strY "true"),
        ("variants", .seqY [.mapY [], .mapY []])])).isOk = false
    ∧ (get_config ⟨none, some "z"⟩ (.mapY [("run", .strY "true"),
        ("variants", .mapY [("a", .mapY [])])])).isOk = false
    ∧ (Config.mk none (some "0") none none ["true"] none [] false 2
        (none : Option (List String)))
      ≠ Config.mk none (some "1") none none ["true"] none [] false 3 none :=
  ⟨get_config_resolution.1 ⟨none, none⟩ (.mapY [("run", .strY "true")])
      (Config.mk none none none none ["true"] none [] false 1 none) rfl,
   get_config_resolution.2.1 ⟨none, some "2"⟩
      (.mapY [("run", .strY "true"),
        ("variants", .seqY [.mapY [], .mapY []])])
      [.mapY [], .mapY []] "2" 2 rfl rfl rfl (by norm_num),
   get_config_resolution.2.2.1 ⟨none, some "z"⟩
      (.mapY [("run", .strY "true"), ("variants", .mapY [("a", .mapY [])])])
      [("a", .mapY [])] "z" rfl rfl rfl,
   get_config_resolution.2.2.2 ⟨none, some "0"⟩ ⟨none, some "1"⟩
      (.mapY [("run", .strY "true"),
        ("variants", .seqY [.mapY [("iterations", .intY 2)],
          .mapY [("iterations", .intY 3)]])])
      (.seqY [.mapY [("iterations", .intY 2)],
        .mapY [("iterations", .intY 3)]])
      "0" "1"
      (Config.mk none (some "0") none none ["true"] none [] false 2 none)
      (Config.mk none (some "1") none none ["true"] none [] false 3 none)
      rfl rfl rfl (by decide) rfl rfl⟩

/-- C10: `summarize` panics (aborting the whole stream with no output,
modelled as `none`) on a well-formed JSON line whose name is a number, or
whose iterations value is a string, or whose iteration metric value is a
string, instead of skipping the line. -/
theorem summarize_panics_on_malformed :
    summarizeStream (fun x => x)
      [some [("name", .num (.fin 1)), ("variant", .str "v"),
        ("iterations", .arr [])]] [] = none
    ∧ summarizeStream (fun x => x)
      [some [("name", .str "n"), ("variant", .str "v"),
        ("iterations", .str "boom")]] [] = none
    ∧ summarizeStream (fun x => x)
      [some [("name", .str "n"), ("variant", .str "v"),
        ("iterations", .arr [.map [("x", .str "s")]])]] [] = none :=
  ⟨rfl, rfl, rfl⟩

end Sirun
